import Mathlib

/-!
Verification of webrtc-test, a TURN relay connectivity check.

A shallow embedding of `webrtc-test/main.go`.  The program reads its settings
from the environment, derives the relay credentials, builds the ICE server
list and the peer-connection configuration, wires two in-process peers
together and waits in one `select` for the completion signal, the first
queued error, or the 30 second deadline.

Go strings are embedded as `String` (sequences of code points), Go `int` and
`int64` values as `Int`, byte slices as `List Nat` with every element below
256, buffered channels as explicit queues.
-/

set_option maxRecDepth 1000000

namespace WebrtcTest

/-! ## Strings, the environment and number conversion -/

/-- Go `unicode.IsSpace`: the code points with the Unicode White_Space property. -/
def isSpace (c : Char) : Bool :=
  let v := c.toNat
  (9 ≤ v && v ≤ 13) || v == 0x20 || v == 0x85 || v == 0xA0 || v == 0x1680 ||
  (0x2000 ≤ v && v ≤ 0x200A) || v == 0x2028 || v == 0x2029 || v == 0x202F ||
  v == 0x205F || v == 0x3000

/-- Go `strings.TrimSpace`: drop leading and trailing white space. -/
def TrimSpace (s : String) : String :=
  String.mk ((s.data.dropWhile isSpace).rdropWhile isSpace)

/-- The process environment as `os.Getenv` sees it: every key has a value, the
empty string when the variable is not set. -/
abbrev Env := String → String

/-- Source: `envDefault`, main.go lines 210-215. -/
def envDefault (env : Env) (key def_ : String) : String :=
  let val := TrimSpace (env key)
  if val ≠ "" then val else def_

/-- Go `fmt.Sprintf("%d", n)`: decimal digits, with a minus sign when negative. -/
def formatInt (n : Int) : String :=
  match n with
  | Int.ofNat m => Nat.repr m
  | Int.negSucc m => "-" ++ Nat.repr (m + 1)

/-- Value of a decimal digit, if the character is one. -/
def digitVal (c : Char) : Option Nat :=
  if 48 ≤ c.toNat ∧ c.toNat ≤ 57 then some (c.toNat - 48) else none

/-- Read a run of decimal digits, most significant first. -/
def parseDigits : List Char → Nat → Option Nat
  | [], acc => some acc
  | c :: cs, acc =>
    match digitVal c with
    | some d => parseDigits cs (acc * 10 + d)
    | none => none

/-- Go `strconv.Atoi` on a 64-bit platform: an optional sign, then at least one
decimal digit, and the value has to fit in `int`; `none` stands for the error. -/
def Atoi (s : String) : Option Int :=
  match s.data with
  | [] => none
  | c :: cs =>
    if c = '-' then
      if cs = [] then none
      else (parseDigits cs 0).bind fun n =>
        if n ≤ 2 ^ 63 then some (-(n : Int)) else none
    else if c = '+' then
      if cs = [] then none
      else (parseDigits cs 0).bind fun n =>
        if n < 2 ^ 63 then some (n : Int) else none
    else (parseDigits (c :: cs) 0).bind fun n =>
      if n < 2 ^ 63 then some (n : Int) else none

/-- Source: `envInt`, main.go lines 217-228 (the log line of the error branch
is not part of the returned value). -/
def envInt (env : Env) (key : String) (def_ : Int) : Int :=
  let val := TrimSpace (env key)
  if val = "" then def_
  else
    match Atoi val with
    | none => def_
    | some parsed => parsed

/-! ## Library functions the credential derivation calls -/

/-- UTF-8 bytes of one code point. -/
def utf8EncodeChar (c : Char) : List Nat :=
  let v := c.toNat
  if v < 0x80 then [v]
  else if v < 0x800 then [0xC0 + v / 64, 0x80 + v % 64]
  else if v < 0x10000 then [0xE0 + v / 4096, 0x80 + v / 64 % 64, 0x80 + v % 64]
  else [0xF0 + v / 262144, 0x80 + v / 4096 % 64, 0x80 + v / 64 % 64, 0x80 + v % 64]

/-- Go `[]byte(s)`: the bytes of a string. -/
def toBytes (s : String) : List Nat := s.data.flatMap utf8EncodeChar

/-- Rotate a 32-bit word left. -/
def rotl32 (x n : Nat) : Nat := ((x <<< n) ||| (x >>> (32 - n))) % 2 ^ 32

/-- Big-endian bytes of a number, `k` of them. -/
def beBytes : Nat → Nat → List Nat
  | 0, _ => []
  | k + 1, x => (x / 256 ^ k) % 256 :: beBytes k x

/-- SHA-1 padding: a one bit, zero bits, and the bit length in 64 bits. -/
def sha1Pad (msg : List Nat) : List Nat :=
  let n := msg.length
  msg ++ [0x80] ++ List.replicate ((119 - n % 64) % 64) 0 ++ beBytes 8 (8 * n)

/-- Read 32-bit big-endian words. -/
def beWords : Nat → List Nat → List Nat
  | 0, _ => []
  | k + 1, bs =>
    (bs.getD 0 0 * 16777216 + bs.getD 1 0 * 65536 + bs.getD 2 0 * 256 + bs.getD 3 0)
      :: beWords k (bs.drop 4)

/-- Message schedule: extend the words by `k` more, newest first. -/
def sha1Extend : Nat → List Nat → List Nat
  | 0, w => w
  | k + 1, w =>
    sha1Extend k
      (rotl32 (w.getD 2 0 ^^^ w.getD 7 0 ^^^ w.getD 13 0 ^^^ w.getD 15 0) 1 :: w)

/-- The five chaining words of SHA-1. -/
structure Sha1State where
  a : Nat
  b : Nat
  c : Nat
  d : Nat
  e : Nat
deriving DecidableEq, Repr

/-- One of the eighty rounds, for round index `t` and schedule word `w`. -/
def sha1Round (s : Sha1State) (t w : Nat) : Sha1State :=
  let f :=
    if t < 20 then (s.b &&& s.c) ||| ((s.b ^^^ 0xFFFFFFFF) &&& s.d)
    else if t < 40 then s.b ^^^ s.c ^^^ s.d
    else if t < 60 then (s.b &&& s.c) ||| (s.b &&& s.d) ||| (s.c &&& s.d)
    else s.b ^^^ s.c ^^^ s.d
  let k :=
    if t < 20 then 0x5A827999
    else if t < 40 then 0x6ED9EBA1
    else if t < 60 then 0x8F1BBCDC
    else 0xCA62C1D6
  { a := (rotl32 s.a 5 + f + s.e + k + w) % 2 ^ 32
    b := s.a
    c := rotl32 s.b 30
    d := s.c
    e := s.d }

/-- Run the rounds over the schedule, counting the round index up. -/
def sha1Rounds : List Nat → Nat → Sha1State → Sha1State
  | [], _, s => s
  | w :: ws, t, s => sha1Rounds ws (t + 1) (sha1Round s t w)

/-- Compress one 64-byte block into the chaining state. -/
def sha1Block (h : Sha1State) (block : List Nat) : Sha1State :=
  let w := (sha1Extend 64 (beWords 16 block).reverse).reverse
  let r := sha1Rounds w 0 h
  { a := (h.a + r.a) % 2 ^ 32
    b := (h.b + r.b) % 2 ^ 32
    c := (h.c + r.c) % 2 ^ 32
    d := (h.d + r.d) % 2 ^ 32
    e := (h.e + r.e) % 2 ^ 32 }

/-- Fold the compression over `k` blocks. -/
def sha1Blocks : Nat → List Nat → Sha1State → Sha1State
  | 0, _, h => h
  | k + 1, bs, h => sha1Blocks k (bs.drop 64) (sha1Block h (bs.take 64))

/-- SHA-1 (RFC 3174) of a byte string: twenty bytes. -/
def sha1 (msg : List Nat) : List Nat :=
  let p := sha1Pad msg
  let h := sha1Blocks (p.length / 64) p
    { a := 0x67452301, b := 0xEFCDAB89, c := 0x98BADCFE, d := 0x10325476, e := 0xC3D2E1F0 }
  beBytes 4 h.a ++ beBytes 4 h.b ++ beBytes 4 h.c ++ beBytes 4 h.d ++ beBytes 4 h.e

/-- HMAC (RFC 2104) over SHA-1, what `hmac.New(sha1.New, key)` followed by
`Write(msg)` and `Sum(nil)` returns. -/
def hmacSha1 (key msg : List Nat) : List Nat :=
  let k0 := if key.length > 64 then sha1 key else key
  let k := k0 ++ List.replicate (64 - k0.length) 0
  sha1 (k.map (· ^^^ 0x5C) ++ sha1 (k.map (· ^^^ 0x36) ++ msg))

/-- The alphabet of `base64.StdEncoding`. -/
def base64Char (v : Nat) : Char :=
  if v < 26 then Char.ofNat (65 + v)
  else if v < 52 then Char.ofNat (97 + (v - 26))
  else if v < 62 then Char.ofNat (48 + (v - 52))
  else if v = 62 then '+'
  else '/'

/-- Encode bytes three at a time, padding the last group with `=`. -/
def base64Chars : List Nat → List Char
  | [] => []
  | [x] => [base64Char (x / 4), base64Char (x % 4 * 16), '=', '=']
  | [x, y] =>
    [base64Char (x / 4), base64Char (x % 4 * 16 + y / 16), base64Char (y % 16 * 4), '=']
  | x :: y :: z :: rest =>
    base64Char (x / 4) :: base64Char (x % 4 * 16 + y / 16) ::
      base64Char (y % 16 * 4 + z / 64) :: base64Char (z % 64) :: base64Chars rest

/-- Go `base64.StdEncoding.EncodeToString`. -/
def EncodeToString (bs : List Nat) : String := String.mk (base64Chars bs)

/-! ## Credentials, relay descriptors and the configuration -/

/-- Pion `webrtc.ICECredentialType`. -/
inductive ICECredentialType where
  | Password
  | Oauth
deriving DecidableEq, Repr

/-- Pion `webrtc.ICETransportPolicy`. -/
inductive ICETransportPolicy where
  | All
  | Relay
deriving DecidableEq, Repr

/-- Pion `webrtc.ICEServer`, the fields the program sets. -/
structure ICEServer where
  URLs : List String
  Username : String
  Credential : String
  CredentialType : ICECredentialType
deriving DecidableEq, Repr

/-- Pion `webrtc.Configuration`, the fields the program sets. -/
structure Configuration where
  ICEServers : List ICEServer
  ICETransportPolicy : ICETransportPolicy
deriving DecidableEq, Repr

/-- Source: main.go lines 29-41.  The pair `(turnUser, turnPass)` after the
optional TURN REST derivation; `now` is `time.Now()` in Unix seconds, so that
`time.Now().Add(30 * time.Minute).Unix()` is `now + 30 * 60`. -/
def turnCredentials (env : Env) (now : Int) : String × String :=
  let turnUser := TrimSpace (env "TURN_USERNAME")
  let turnPass := TrimSpace (env "TURN_PASSWORD")
  let authSecret := TrimSpace (env "TURN_AUTH_SECRET")
  if authSecret ≠ "" then
    let expires := now + 30 * 60
    let generatedUser := formatInt expires ++ ":" ++ "webrtc-turn-check"
    let generatedPass :=
      EncodeToString (hmacSha1 (toBytes authSecret) (toBytes generatedUser))
    (generatedUser, generatedPass)
  else (turnUser, turnPass)

/-- Source: main.go lines 43-63, the slice `iceServers` after both appends. -/
def iceServers (turnDomain : String) (turnPort turnTLSPort : Int)
    (turnUser turnPass : String) : List ICEServer :=
  let servers : List ICEServer := []
  let udpURLs := [
    "turn:" ++ turnDomain ++ ":" ++ formatInt turnPort ++ "?transport=udp",
    "turn:" ++ turnDomain ++ ":" ++ formatInt turnPort ++ "?transport=tcp"]
  let servers := servers ++ [{
    URLs := udpURLs
    Username := turnUser
    Credential := turnPass
    CredentialType := ICECredentialType.Password }]
  if turnTLSPort > 0 then
    servers ++ [{
      URLs := ["turns:" ++ turnDomain ++ ":" ++ formatInt turnTLSPort ++ "?transport=tcp"]
      Username := turnUser
      Credential := turnPass
      CredentialType := ICECredentialType.Password }]
  else servers

deriving instance DecidableEq for Except

/-- Source: main.go lines 23-68, everything `main` does with the value of
`turnDomain` up to the configuration literal.  `Except.error` is `log.Fatal`:
the process ends there and nothing after it runs. -/
def configFor (turnDomain : String) (env : Env) (now : Int) : Except String Configuration :=
  if turnDomain = "" then Except.error "TURN_DOMAIN must not be empty"
  else
    let turnPort := envInt env "TURN_PORT" 3478
    let turnTLSPort := envInt env "TURN_TLS_PORT" 5349
    let cred := turnCredentials env now
    Except.ok {
      ICEServers := iceServers turnDomain turnPort turnTLSPort cred.1 cred.2
      ICETransportPolicy := ICETransportPolicy.Relay }

/-- Source: main.go lines 22-68, the configuration `main` hands to both
`NewPeerConnection` calls, or the fatal message. -/
def mainConfig (env : Env) (now : Int) : Except String Configuration :=
  configFor (envDefault env "TURN_DOMAIN" "turn.server.ghifari.dev") env now

/-! ## The completion tracker, the callbacks and the final select -/

/-- A buffered Go channel: its capacity, the queued values, and the values of
the senders parked in `ch <- v` because the buffer was full. -/
structure Chan (α : Type) where
  cap : Nat
  buf : List α
  waiting : List α
deriving DecidableEq, Repr

/-- Go `make(chan T, cap)`. -/
def Chan.make {α : Type} (cap : Nat) : Chan α := { cap := cap, buf := [], waiting := [] }

/-- Go `ch <- v`: the value is queued when there is room, otherwise the sender
parks until a receive frees a slot. -/
def Chan.send {α : Type} (ch : Chan α) (v : α) : Chan α :=
  if ch.buf.length < ch.cap then { ch with buf := ch.buf ++ [v] }
  else { ch with waiting := ch.waiting ++ [v] }

/-- Go `<-ch` on a channel with a queued value: the head is taken and the
longest parked sender, if any, moves into the freed slot. -/
def Chan.recv {α : Type} (ch : Chan α) : Option (α × Chan α) :=
  match ch.buf with
  | [] => none
  | v :: rest =>
    match ch.waiting with
    | [] => some (v, { ch with buf := rest })
    | w :: ws => some (v, { ch with buf := rest ++ [w], waiting := ws })

/-- Pion `webrtc.ICEConnectionState`. -/
inductive ICEConnectionState where
  | Unknown
  | New
  | Checking
  | Connected
  | Completed
  | Disconnected
  | Failed
  | Closed
deriving DecidableEq, Repr

/-- Pion `ICEConnectionState.String`. -/
def ICEConnectionState.String : ICEConnectionState → String
  | .Unknown => "unknown"
  | .New => "new"
  | .Checking => "checking"
  | .Connected => "connected"
  | .Completed => "completed"
  | .Disconnected => "disconnected"
  | .Failed => "failed"
  | .Closed => "closed"

/-- Pion `webrtc.ICECandidate`, the two fields the program prints. -/
structure ICECandidate where
  Address : String
  Typ : String
deriving DecidableEq, Repr

/-- The variables of `main` that the callbacks and the final select share
(main.go lines 88-92 and 197), with the lines printed by `log.Printf`.  The
counter is a Go `int` that starts at 2 and drops by one per received message;
it is kept as an `Int`. -/
structure RunState where
  messagesNeeded : Int
  once : Bool
  doneCh : Chan Unit
  errCh : Chan String
  ctxDone : Bool
  log : List String
deriving DecidableEq, Repr

/-- Source: main.go lines 88-92: a fresh `sync.Once`, `errCh` of capacity 4,
`doneCh` of capacity 1 and `messagesNeeded := 2`. -/
def RunState.init : RunState :=
  { messagesNeeded := 2
    once := false
    doneCh := Chan.make 1
    errCh := Chan.make 4
    ctxDone := false
    log := [] }

/-- Source: `markMessage`, main.go lines 94-104.  The body runs under
`msgLock`, so one call is one step; `once` is the done flag of the
`sync.Once`. -/
def markMessage (source payload : String) (s : RunState) : RunState :=
  let s := { s with messagesNeeded := s.messagesNeeded - 1 }
  let s := { s with log := s.log ++ [source ++ " received message: " ++ payload ++
    " (remaining confirmations: " ++ formatInt s.messagesNeeded ++ ")"] }
  if s.messagesNeeded ≤ 0 then
    if s.once then s
    else { s with once := true, doneCh := s.doneCh.send () }
  else s

/-- One invocation of a callback registered in `main`, or the deadline of the
context.  What the engine decides is part of the event: the new ICE state, the
gathered candidate with the result of handing it to the other peer, the result
of `SendText`, the received text. -/
inductive Event where
  | offerICEState (state : ICEConnectionState)
  | answerICEState (state : ICEConnectionState)
  | offerCandidate (c : Option ICECandidate) (addErr : Option String)
  | answerCandidate (c : Option ICECandidate) (addErr : Option String)
  | offerOpen (sendErr : Option String)
  | answerDataChannel (name : String)
  | answerOpen (sendErr : Option String)
  | offerMessage (data : String)
  | answerMessage (data : String)
  | deadline
deriving DecidableEq, Repr

/-- The statement `errCh <- fmt.Errorf(...)` of a callback. -/
def sendErr (s : RunState) (msg : String) : RunState :=
  { s with errCh := s.errCh.send msg }

/-- A `log.Printf` call. -/
def logf (s : RunState) (line : String) : RunState :=
  { s with log := s.log ++ [line] }

/-- Source: the callbacks of main.go lines 106-171, one case per handler, and
the expiry of the context of line 197. -/
def step (s : RunState) : Event → RunState
  | .offerICEState state =>
    let s := logf s ("offer peer ICE state: " ++ state.String)
    if state = .Failed ∨ state = .Disconnected then
      sendErr s ("offer peer ICE state: " ++ state.String)
    else s
  | .answerICEState state =>
    let s := logf s ("answer peer ICE state: " ++ state.String)
    if state = .Failed ∨ state = .Disconnected then
      sendErr s ("answer peer ICE state: " ++ state.String)
    else s
  | .offerCandidate none _ => s
  | .offerCandidate (some c) addErr =>
    let s := logf s ("offer peer gathered candidate: " ++ c.Address ++ " (" ++ c.Typ ++ ")")
    match addErr with
    | some err => sendErr s ("answer peer add candidate: " ++ err)
    | none => s
  | .answerCandidate none _ => s
  | .answerCandidate (some c) addErr =>
    let s := logf s ("answer peer gathered candidate: " ++ c.Address ++ " (" ++ c.Typ ++ ")")
    match addErr with
    | some err => sendErr s ("offer peer add candidate: " ++ err)
    | none => s
  | .offerOpen err =>
    let s := logf s "offer data channel open, sending greeting"
    match err with
    | some err => sendErr s ("offer channel send: " ++ err)
    | none => s
  | .answerDataChannel name => logf s ("answer data channel created: " ++ name)
  | .answerOpen err =>
    let s := logf s "answer data channel open, sending reply"
    match err with
    | some err => sendErr s ("answer channel send: " ++ err)
    | none => s
  | .offerMessage data => markMessage "offer" data s
  | .answerMessage data => markMessage "answer" data s
  | .deadline => { s with ctxDone := true }

/-- What the final select of `main` resolves to (main.go lines 200-207). -/
inductive Outcome where
  | Success
  | Failure (err : String)
  | Timeout
deriving DecidableEq, Repr

/-- The cases of the select that can proceed in a state: a value queued on
`doneCh`, a value queued on `errCh`, a closed `ctx.Done()`. -/
def ready (s : RunState) : List Outcome :=
  (if s.doneCh.buf ≠ [] then [Outcome.Success] else []) ++
  (match s.errCh.buf with
   | err :: _ => [Outcome.Failure err]
   | [] => []) ++
  (if s.ctxDone then [Outcome.Timeout] else [])

/-- A select reached in state `s` with the events still to come: the outcomes
it can resolve to.  When cases can proceed on arrival Go picks any one of them;
when none can, the goroutine sleeps until the first event that lets one
proceed.  The empty list means it is still asleep when the events run out. -/
def awaitSelect : RunState → List Event → List Outcome
  | s, [] => ready s
  | s, e :: es => if ready s ≠ [] then ready s else awaitSelect (step s e) es

/-- The state after a sequence of events. -/
def runEvents (evs : List Event) : RunState := evs.foldl step RunState.init

/-- The possible results of a run in which the events `before` happen before
`main` reaches the select and the events `after` while it waits there. -/
def runSelect (before after : List Event) : List Outcome :=
  awaitSelect (runEvents before) after

/-- The state after a sequence of `markMessage` calls, given as pairs of
source and payload. -/
def markAll (calls : List (String × String)) : RunState :=
  calls.foldl (fun s c => markMessage c.1 c.2 s) RunState.init

/-- Whether the callback of an event executes a send on `errCh`. -/
def sendsError : Event → Bool
  | .offerICEState state => state = .Failed ∨ state = .Disconnected
  | .answerICEState state => state = .Failed ∨ state = .Disconnected
  | .offerCandidate (some _) (some _) => true
  | .answerCandidate (some _) (some _) => true
  | .offerOpen (some _) => true
  | .answerOpen (some _) => true
  | _ => false

/-- Number of sends on `errCh` that a sequence of events executes. -/
def errorCount (evs : List Event) : Nat := evs.countP sendsError

/-- Whether the callback of an event calls `markMessage`. -/
def isMessage : Event → Bool
  | .offerMessage _ => true
  | .answerMessage _ => true
  | _ => false

/-- Number of `markMessage` calls that a sequence of events makes. -/
def msgCount (evs : List Event) : Nat := evs.countP isMessage

/-- The tracker fields after `k` calls of `markMessage`: the counter, the done
flag of the `sync.Once`, and `doneCh` with its single slot. -/
def TrackerInv (k : Nat) (s : RunState) : Prop :=
  s.messagesNeeded = 2 - (k : Int) ∧ s.once = decide (2 ≤ k) ∧
  s.doneCh = { cap := 1, buf := if 2 ≤ k then [()] else [], waiting := [] }

/-- The error channel after `n` sends and no receive. -/
def ErrChInv (n : Nat) (s : RunState) : Prop :=
  s.errCh.cap = 4 ∧ s.errCh.buf.length = min n 4 ∧ s.errCh.waiting.length = n - 4

/-! ## Concrete environments and event sequences -/

/-- No variable is set. -/
def emptyEnv : Env := fun _ => ""

/-- Shared secret `s3cret`, static credentials `alice` and `wonderland`. -/
def secretEnvA : Env := fun key =>
  if key = "TURN_AUTH_SECRET" then "s3cret"
  else if key = "TURN_USERNAME" then "alice"
  else if key = "TURN_PASSWORD" then "wonderland"
  else ""

/-- Shared secret `s3cret`, static credentials `bob` and `builder`. -/
def secretEnvB : Env := fun key =>
  if key = "TURN_AUTH_SECRET" then "s3cret"
  else if key = "TURN_USERNAME" then "bob"
  else if key = "TURN_PASSWORD" then "builder"
  else ""

/-- Shared secret `s3cret` written with a blank on either side. -/
def paddedSecretEnv : Env := fun key =>
  if key = "TURN_AUTH_SECRET" then " s3cret " else ""

/-- Static credentials written with a blank before the user name and after the
password, no shared secret. -/
def paddedStaticEnv : Env := fun key =>
  if key = "TURN_USERNAME" then " alice"
  else if key = "TURN_PASSWORD" then "wonderland "
  else ""

/-- TURN_DOMAIN set to two blanks. -/
def blankDomainEnv : Env := fun key =>
  if key = "TURN_DOMAIN" then "  " else ""

/-- Both peers report `disconnected` and then `failed`, and one candidate of
the offer peer is refused by the answer peer: five sends on `errCh`. -/
def fiveErrors : List Event :=
  [ .offerICEState .Disconnected, .answerICEState .Disconnected,
    .offerICEState .Failed, .answerICEState .Failed,
    .offerCandidate (some { Address := "203.0.113.7", Typ := "relay" })
      (some "remote description is not set") ]

/-- The encrypted port switched off. -/
def noTLSEnv : Env := fun key =>
  if key = "TURN_TLS_PORT" then "0" else ""


/-! ## The library functions on published test vectors -/

theorem sha1_rfc3174_abc :
    sha1 (toBytes "abc") =
      [0xa9, 0x99, 0x3e, 0x36, 0x47, 0x06, 0x81, 0x6a, 0xba, 0x3e,
       0x25, 0x71, 0x78, 0x50, 0xc2, 0x6c, 0x9c, 0xd0, 0xd8, 0x9d] := by
  decide

theorem hmacSha1_rfc2202_case2 :
    hmacSha1 (toBytes "Jefe") (toBytes "what do ya want for nothing?") =
      [0xef, 0xfc, 0xdf, 0x6a, 0xe5, 0xeb, 0x2f, 0xa2, 0xd2, 0x74,
       0x16, 0xd5, 0xf1, 0x84, 0xdf, 0x9c, 0x25, 0x9a, 0x7c, 0x79] := by
  decide

theorem base64_rfc4648 :
    EncodeToString (toBytes "foobar") = "Zm9vYmFy" ∧
    EncodeToString (toBytes "fooba") = "Zm9vYmE=" ∧
    EncodeToString (toBytes "foob") = "Zm9vYg==" := by
  decide

theorem turnCredentials_example :
    turnCredentials secretEnvA 1700000000 =
      ("1700001800:webrtc-turn-check", "0We0xe5YQkByLMuuKLf3OJ67MLA=") := by
  decide


/-! ## Configuration: helper facts -/

theorem envDefault_of_blank (env : Env) (key def_ : String)
    (h : TrimSpace (env key) = "") : envDefault env key def_ = def_ := by
  simp [envDefault, h]

theorem envDefault_ne_empty (env : Env) (key def_ : String) (hd : def_ ≠ "") :
    envDefault env key def_ ≠ "" := by
  unfold envDefault
  by_cases h : TrimSpace (env key) = ""
  · simp [h, hd]
  · simp [h]

theorem configFor_ok (turnDomain : String) (env : Env) (now : Int)
    (hd : turnDomain ≠ "") :
    configFor turnDomain env now = Except.ok {
      ICEServers := iceServers turnDomain (envInt env "TURN_PORT" 3478)
        (envInt env "TURN_TLS_PORT" 5349) (turnCredentials env now).1
        (turnCredentials env now).2
      ICETransportPolicy := ICETransportPolicy.Relay } := by
  simp [configFor, hd]

theorem mainConfig_ok (env : Env) (now : Int) :
    mainConfig env now = Except.ok {
      ICEServers := iceServers (envDefault env "TURN_DOMAIN" "turn.server.ghifari.dev")
        (envInt env "TURN_PORT" 3478) (envInt env "TURN_TLS_PORT" 5349)
        (turnCredentials env now).1 (turnCredentials env now).2
      ICETransportPolicy := ICETransportPolicy.Relay } :=
  configFor_ok _ env now (envDefault_ne_empty env _ _ (by decide))

theorem iceServers_shape (d : String) (p t : Int) (u c : String) :
    iceServers d p t u c =
      { URLs := ["turn:" ++ d ++ ":" ++ formatInt p ++ "?transport=udp",
                 "turn:" ++ d ++ ":" ++ formatInt p ++ "?transport=tcp"]
        Username := u, Credential := c
        CredentialType := ICECredentialType.Password } ::
      (if t > 0 then
        [{ URLs := ["turns:" ++ d ++ ":" ++ formatInt t ++ "?transport=tcp"]
           Username := u, Credential := c
           CredentialType := ICECredentialType.Password }]
       else []) := by
  unfold iceServers
  split <;> simp

theorem iceServers_credential (d : String) (p t : Int) (u c : String) (sv : ICEServer)
    (h : sv ∈ iceServers d p t u c) :
    sv.Username = u ∧ sv.Credential = c ∧ sv.CredentialType = ICECredentialType.Password := by
  rw [iceServers_shape] at h
  by_cases ht : t > 0
  · simp only [ht, if_true, List.mem_cons, List.mem_singleton, List.not_mem_nil, or_false] at h
    rcases h with h | h <;> subst h <;> exact ⟨rfl, rfl, rfl⟩
  · simp only [ht, if_false, List.mem_cons, List.not_mem_nil, or_false] at h
    subst h
    exact ⟨rfl, rfl, rfl⟩


/-! ## Credentials -/

theorem turnCredentials_secret (env : Env) (now : Int)
    (h : TrimSpace (env "TURN_AUTH_SECRET") ≠ "") :
    turnCredentials env now =
      (formatInt (now + 1800) ++ ":webrtc-turn-check",
       EncodeToString (hmacSha1 (toBytes (TrimSpace (env "TURN_AUTH_SECRET")))
         (toBytes (formatInt (now + 1800) ++ ":webrtc-turn-check")))) := by
  simp [turnCredentials, h, String.append_assoc]

theorem turnCredentials_static (env : Env) (now : Int)
    (h : TrimSpace (env "TURN_AUTH_SECRET") = "") :
    turnCredentials env now =
      (TrimSpace (env "TURN_USERNAME"), TrimSpace (env "TURN_PASSWORD")) := by
  simp [turnCredentials, h]

/-- C3 (credential mode exclusivity): two runs with the same TURN_AUTH_SECRET,
non-empty after trimming, and the same clock value derive the same user name
and credential whatever TURN_USERNAME and TURN_PASSWORD (and every other
variable) hold, and every relay descriptor of the first run carries the pair
derived in the second. -/
theorem credentials_ignore_static (env₁ env₂ : Env) (now : Int)
    (hsame : env₁ "TURN_AUTH_SECRET" = env₂ "TURN_AUTH_SECRET")
    (hset : TrimSpace (env₁ "TURN_AUTH_SECRET") ≠ "") :
    turnCredentials env₁ now = turnCredentials env₂ now ∧
    ∀ cfg, mainConfig env₁ now = Except.ok cfg → ∀ sv ∈ cfg.ICEServers,
      sv.Username = (turnCredentials env₂ now).1 ∧
      sv.Credential = (turnCredentials env₂ now).2 := by
  have hcred : turnCredentials env₁ now = turnCredentials env₂ now := by
    rw [turnCredentials_secret env₁ now hset,
      turnCredentials_secret env₂ now (hsame ▸ hset), hsame]
  refine ⟨hcred, ?_⟩
  intro cfg hcfg sv hsv
  rw [mainConfig_ok] at hcfg
  injection hcfg with hcfg
  subst hcfg
  have h := iceServers_credential _ _ _ _ _ sv hsv
  rw [← hcred]
  exact ⟨h.1, h.2.1⟩

theorem credentials_ignore_static_witness :
    turnCredentials secretEnvA 1700000000 = turnCredentials secretEnvB 1700000000 ∧
    ∀ cfg, mainConfig secretEnvA 1700000000 = Except.ok cfg → ∀ sv ∈ cfg.ICEServers,
      sv.Username = (turnCredentials secretEnvB 1700000000).1 ∧
      sv.Credential = (turnCredentials secretEnvB 1700000000).2 :=
  credentials_ignore_static secretEnvA secretEnvB 1700000000 (by decide) (by decide)

/-- C4, as stated, fails: with TURN_AUTH_SECRET set to `s3cret` between two
blanks (non-empty after trimming) the derived credential is not the encoding
of the HMAC keyed with that value; the key is the trimmed text. -/
theorem secret_key_is_trimmed_counterexample :
    TrimSpace (paddedSecretEnv "TURN_AUTH_SECRET") ≠ "" ∧
    (turnCredentials paddedSecretEnv 1700000000).2 ≠
      EncodeToString (hmacSha1 (toBytes (paddedSecretEnv "TURN_AUTH_SECRET"))
        (toBytes (turnCredentials paddedSecretEnv 1700000000).1)) ∧
    (turnCredentials paddedSecretEnv 1700000000).2 =
      EncodeToString (hmacSha1 (toBytes "s3cret")
        (toBytes (turnCredentials paddedSecretEnv 1700000000).1)) := by
  decide

/-- C4 (signed-credential derivation), amended: when TURN_AUTH_SECRET is
non-empty after trimming, the identity is the decimal form of `now + 1800`
followed by `:webrtc-turn-check`, the credential is the standard base64
encoding of HMAC-SHA1 keyed with the trimmed secret over that identity, and
both depend only on the trimmed secret and the clock value. -/
theorem signed_credential_derivation (env : Env) (now : Int)
    (hset : TrimSpace (env "TURN_AUTH_SECRET") ≠ "") :
    (turnCredentials env now).1 = formatInt (now + 1800) ++ ":webrtc-turn-check" ∧
    (turnCredentials env now).2 =
      EncodeToString (hmacSha1 (toBytes (TrimSpace (env "TURN_AUTH_SECRET")))
        (toBytes (turnCredentials env now).1)) ∧
    (∀ other : Env,
      TrimSpace (other "TURN_AUTH_SECRET") = TrimSpace (env "TURN_AUTH_SECRET") →
      turnCredentials other now = turnCredentials env now) := by
  refine ⟨?_, ?_, ?_⟩
  · rw [turnCredentials_secret env now hset]
  · rw [turnCredentials_secret env now hset]
  · intro other hother
    rw [turnCredentials_secret env now hset,
      turnCredentials_secret other now (hother ▸ hset), hother]

theorem signed_credential_derivation_witness :
    (turnCredentials paddedSecretEnv 1700000000).1 =
      formatInt (1700000000 + 1800) ++ ":webrtc-turn-check" ∧
    (turnCredentials paddedSecretEnv 1700000000).2 =
      EncodeToString (hmacSha1 (toBytes (TrimSpace (paddedSecretEnv "TURN_AUTH_SECRET")))
        (toBytes (turnCredentials paddedSecretEnv 1700000000).1)) ∧
    (∀ other : Env,
      TrimSpace (other "TURN_AUTH_SECRET") =
        TrimSpace (paddedSecretEnv "TURN_AUTH_SECRET") →
      turnCredentials other 1700000000 = turnCredentials paddedSecretEnv 1700000000) :=
  signed_credential_derivation paddedSecretEnv 1700000000 (by decide)

/-- C5, as stated, fails: without a shared secret, a user name with a leading
blank and a password with a trailing blank do not reach the relay descriptors
unchanged. -/
theorem static_credentials_verbatim_counterexample :
    TrimSpace (paddedStaticEnv "TURN_AUTH_SECRET") = "" ∧
    ∃ cfg, mainConfig paddedStaticEnv 0 = Except.ok cfg ∧
      ∀ sv ∈ cfg.ICEServers,
        sv.Username ≠ paddedStaticEnv "TURN_USERNAME" ∧
        sv.Credential ≠ paddedStaticEnv "TURN_PASSWORD" ∧
        sv.Username = "alice" ∧ sv.Credential = "wonderland" := by
  refine ⟨by decide, _, mainConfig_ok paddedStaticEnv 0, ?_⟩
  decide

/-- C5 (static credentials), amended: without a shared secret every relay
descriptor carries TURN_USERNAME and TURN_PASSWORD with leading and trailing
white space removed; values without such white space, the empty string
included, pass through unchanged. -/
theorem static_credentials_trimmed (env : Env) (now : Int)
    (hnone : TrimSpace (env "TURN_AUTH_SECRET") = "") :
    ∃ cfg, mainConfig env now = Except.ok cfg ∧ cfg.ICEServers ≠ [] ∧
      ∀ sv ∈ cfg.ICEServers,
        sv.Username = TrimSpace (env "TURN_USERNAME") ∧
        sv.Credential = TrimSpace (env "TURN_PASSWORD") ∧
        (TrimSpace (env "TURN_USERNAME") = env "TURN_USERNAME" →
          sv.Username = env "TURN_USERNAME") ∧
        (TrimSpace (env "TURN_PASSWORD") = env "TURN_PASSWORD" →
          sv.Credential = env "TURN_PASSWORD") := by
  refine ⟨_, mainConfig_ok env now, ?_, ?_⟩
  · rw [iceServers_shape]
    exact List.cons_ne_nil _ _
  · intro sv hsv
    have h := iceServers_credential _ _ _ _ _ sv hsv
    rw [turnCredentials_static env now hnone] at h
    exact ⟨h.1, h.2.1, fun hu => h.1.trans hu, fun hp => h.2.1.trans hp⟩

theorem static_credentials_trimmed_witness :
    ∃ cfg, mainConfig paddedStaticEnv 0 = Except.ok cfg ∧ cfg.ICEServers ≠ [] ∧
      ∀ sv ∈ cfg.ICEServers,
        sv.Username = TrimSpace (paddedStaticEnv "TURN_USERNAME") ∧
        sv.Credential = TrimSpace (paddedStaticEnv "TURN_PASSWORD") ∧
        (TrimSpace (paddedStaticEnv "TURN_USERNAME") = paddedStaticEnv "TURN_USERNAME" →
          sv.Username = paddedStaticEnv "TURN_USERNAME") ∧
        (TrimSpace (paddedStaticEnv "TURN_PASSWORD") = paddedStaticEnv "TURN_PASSWORD" →
          sv.Credential = paddedStaticEnv "TURN_PASSWORD") :=
  static_credentials_trimmed paddedStaticEnv 0 (by decide)


/-! ## Relay descriptors and the configuration -/

theorem envInt_zero (env : Env) (key : String) (def_ : Int)
    (h : TrimSpace (env key) = "0") : envInt env key def_ = 0 := by
  have h0 : Atoi "0" = some 0 := by decide
  simp [envInt, h, h0]

/-- C6 (relay descriptor set): the list starts with the descriptor of the two
plain URLs, udp before tcp, and continues with the descriptor of the single
`turns:` URL exactly when the TLS port is positive; so it has two entries for
a positive TLS port and one otherwise, every entry carries the same user name
and credential with credential type password, and TURN_TLS_PORT=0 yields a
configuration with exactly one descriptor. -/
theorem relay_descriptor_set (d : String) (p t : Int) (u c : String) :
    iceServers d p t u c =
      { URLs := ["turn:" ++ d ++ ":" ++ formatInt p ++ "?transport=udp",
                 "turn:" ++ d ++ ":" ++ formatInt p ++ "?transport=tcp"]
        Username := u, Credential := c
        CredentialType := ICECredentialType.Password } ::
      (if t > 0 then
        [{ URLs := ["turns:" ++ d ++ ":" ++ formatInt t ++ "?transport=tcp"]
           Username := u, Credential := c
           CredentialType := ICECredentialType.Password }]
       else []) ∧
    (iceServers d p t u c).length = (if t > 0 then 2 else 1) ∧
    (∀ sv ∈ iceServers d p t u c,
      sv.Username = u ∧ sv.Credential = c ∧
      sv.CredentialType = ICECredentialType.Password) ∧
    (∀ (env : Env) (now : Int), TrimSpace (env "TURN_TLS_PORT") = "0" →
      ∃ cfg, mainConfig env now = Except.ok cfg ∧ cfg.ICEServers.length = 1) := by
  refine ⟨iceServers_shape d p t u c, ?_, iceServers_credential d p t u c, ?_⟩
  · rw [iceServers_shape]
    split <;> rfl
  · intro env now h0
    refine ⟨_, mainConfig_ok env now, ?_⟩
    rw [iceServers_shape, envInt_zero env _ _ h0]
    rfl

theorem relay_descriptor_set_witness :
    ∃ cfg, mainConfig noTLSEnv 0 = Except.ok cfg ∧ cfg.ICEServers.length = 1 :=
  (relay_descriptor_set "" 0 0 "" "").2.2.2 noTLSEnv 0 (by decide)

/-- C7 (relay-only enforcement): whatever the environment and the clock, a
configuration that gets built has the relay-only ICE transport policy, for
the domain `main` reads and for any other domain value. -/
theorem relay_only_policy (env : Env) (now : Int) (cfg : Configuration)
    (hbuilt : mainConfig env now = Except.ok cfg) :
    cfg.ICETransportPolicy = ICETransportPolicy.Relay ∧
    ∀ (d : String) (cfg₂ : Configuration), configFor d env now = Except.ok cfg₂ →
      cfg₂.ICETransportPolicy = ICETransportPolicy.Relay := by
  constructor
  · rw [mainConfig_ok] at hbuilt
    injection hbuilt with hbuilt
    subst hbuilt
    rfl
  · intro d cfg₂ h
    by_cases hd : d = ""
    · simp [configFor, hd] at h
    · rw [configFor_ok d env now hd] at h
      injection h with h
      subst h
      rfl

theorem relay_only_policy_witness :
    ∃ cfg, mainConfig secretEnvA 1700000000 = Except.ok cfg ∧
      cfg.ICETransportPolicy = ICETransportPolicy.Relay :=
  ⟨_, mainConfig_ok secretEnvA 1700000000,
    (relay_only_policy secretEnvA 1700000000 _ (mainConfig_ok secretEnvA 1700000000)).1⟩

/-- C8, as stated, fails: with TURN_DOMAIN empty (or unset) the domain `main`
obtains from `envDefault` is the default host, not the empty string, and the
run does not end in the fatal configuration error: the relay descriptors are
built for the default host. -/
theorem empty_domain_fatal_counterexample :
    TrimSpace (emptyEnv "TURN_DOMAIN") = "" ∧
    envDefault emptyEnv "TURN_DOMAIN" "turn.server.ghifari.dev" ≠ "" ∧
    mainConfig emptyEnv 0 ≠ Except.error "TURN_DOMAIN must not be empty" ∧
    mainConfig emptyEnv 0 = Except.ok {
      ICEServers := iceServers "turn.server.ghifari.dev" 3478 5349 "" ""
      ICETransportPolicy := ICETransportPolicy.Relay } := by
  decide

/-- C8 (empty domain), amended: when TURN_DOMAIN is empty or white space only,
`envDefault` returns the default host, the check at the top of `main` does not
fire and the configuration is built for that host; the check is fatal, before
any descriptor is built, exactly for an empty domain value, which `envDefault`
never returns with its non-empty default. -/
theorem empty_domain_uses_default (env : Env) (now : Int)
    (hblank : TrimSpace (env "TURN_DOMAIN") = "") :
    envDefault env "TURN_DOMAIN" "turn.server.ghifari.dev" = "turn.server.ghifari.dev" ∧
    mainConfig env now = Except.ok {
      ICEServers := iceServers "turn.server.ghifari.dev" (envInt env "TURN_PORT" 3478)
        (envInt env "TURN_TLS_PORT" 5349) (turnCredentials env now).1
        (turnCredentials env now).2
      ICETransportPolicy := ICETransportPolicy.Relay } ∧
    (∀ d : String,
      configFor d env now = Except.error "TURN_DOMAIN must not be empty" ↔ d = "") ∧
    (∀ other : Env, envDefault other "TURN_DOMAIN" "turn.server.ghifari.dev" ≠ "") := by
  have hdef := envDefault_of_blank env "TURN_DOMAIN" "turn.server.ghifari.dev" hblank
  refine ⟨hdef, ?_, ?_, ?_⟩
  · rw [mainConfig_ok, hdef]
  · intro d
    constructor
    · intro h
      by_contra hd
      rw [configFor_ok d env now hd] at h
      exact Except.noConfusion h
    · intro hd
      simp [configFor, hd]
  · intro other
    exact envDefault_ne_empty other _ _ (by decide)

theorem empty_domain_uses_default_witness :
    envDefault blankDomainEnv "TURN_DOMAIN" "turn.server.ghifari.dev" =
      "turn.server.ghifari.dev" ∧
    ∃ cfg, mainConfig blankDomainEnv 0 = Except.ok cfg :=
  ⟨(empty_domain_uses_default blankDomainEnv 0 (by decide)).1,
    _, (empty_domain_uses_default blankDomainEnv 0 (by decide)).2.1⟩


/-! ## The tracker and the channels: helper facts -/

theorem markMessage_errCh (a b : String) (s : RunState) :
    (markMessage a b s).errCh = s.errCh ∧ (markMessage a b s).ctxDone = s.ctxDone := by
  unfold markMessage
  dsimp only
  split
  · split <;> exact ⟨rfl, rfl⟩
  · exact ⟨rfl, rfl⟩

theorem markMessage_inv (a b : String) (s : RunState) (k : Nat) (h : TrackerInv k s) :
    TrackerInv (k + 1) (markMessage a b s) := by
  obtain ⟨hn, ho, hd⟩ := h
  unfold markMessage TrackerInv
  dsimp only
  rcases Nat.lt_or_ge k 1 with hk | hk
  · have hk0 : k = 0 := by omega
    subst hk0
    have : ¬ (s.messagesNeeded - 1 ≤ 0) := by rw [hn]; decide
    rw [if_neg this]
    refine ⟨?_, ?_, ?_⟩
    · simp [hn]
    · simpa using ho
    · simpa using hd
  · have hle : s.messagesNeeded - 1 ≤ 0 := by rw [hn]; omega
    rw [if_pos hle]
    rcases Nat.lt_or_ge k 2 with hk2 | hk2
    · have hk1 : k = 1 := by omega
      subst hk1
      have hof : s.once = false := by simpa using ho
      simp only [hof]
      refine ⟨?_, ?_, ?_⟩
      · simp [hn]
      · simp
      · simp [hd, Chan.send]
    · have hot : s.once = true := by simpa [hk2] using ho
      simp only [hot, if_true]
      refine ⟨?_, ?_, ?_⟩
      · simp [hn]; omega
      · simp [hot]; omega
      · have h1 : 2 ≤ k + 1 := by omega
        simpa [hk2, h1] using hd

theorem markAll_snoc (calls : List (String × String)) (c : String × String) :
    markAll (calls ++ [c]) = markMessage c.1 c.2 (markAll calls) := by
  simp [markAll, List.foldl_append]

theorem markAll_inv (calls : List (String × String)) :
    TrackerInv calls.length (markAll calls) := by
  induction calls using List.reverseRecOn with
  | nil => exact ⟨rfl, rfl, rfl⟩
  | append_singleton cs c ih =>
    rw [markAll_snoc, List.length_append, List.length_singleton]
    exact markMessage_inv _ _ _ _ ih

theorem runEvents_snoc (evs : List Event) (e : Event) :
    runEvents (evs ++ [e]) = step (runEvents evs) e := by
  simp [runEvents, List.foldl_append]

theorem runEvents_append (xs ys : List Event) :
    runEvents (xs ++ ys) = ys.foldl step (runEvents xs) := by
  simp [runEvents, List.foldl_append]

theorem step_tracker (s : RunState) (e : Event) (k : Nat) (h : TrackerInv k s) :
    TrackerInv (k + (if isMessage e then 1 else 0)) (step s e) := by
  cases e with
  | offerMessage d => exact markMessage_inv _ _ _ _ h
  | answerMessage d => exact markMessage_inv _ _ _ _ h
  | offerICEState st =>
    show TrackerInv k (step s (.offerICEState st))
    unfold step
    dsimp only
    split <;> exact h
  | answerICEState st =>
    show TrackerInv k (step s (.answerICEState st))
    unfold step
    dsimp only
    split <;> exact h
  | offerCandidate c err =>
    cases c with
    | none => exact h
    | some c => cases err <;> exact h
  | answerCandidate c err =>
    cases c with
    | none => exact h
    | some c => cases err <;> exact h
  | offerOpen err => cases err <;> exact h
  | answerOpen err => cases err <;> exact h
  | answerDataChannel n => exact h
  | deadline => exact h

theorem sendErr_inv (s : RunState) (msg : String) (n : Nat) (h : ErrChInv n s) :
    ErrChInv (n + 1) (sendErr s msg) := by
  obtain ⟨hc, hb, hw⟩ := h
  unfold ErrChInv sendErr Chan.send
  dsimp only
  by_cases hlt : s.errCh.buf.length < s.errCh.cap
  · rw [if_pos hlt]
    rw [hc, hb] at hlt
    refine ⟨hc, ?_, ?_⟩
    · simp only [List.length_append, List.length_singleton, hb]; omega
    · simp only [hw]; omega
  · rw [if_neg hlt]
    rw [hc, hb] at hlt
    refine ⟨hc, ?_, ?_⟩
    · simp only [hb]; omega
    · simp only [List.length_append, List.length_singleton, hw]; omega

theorem step_errCh (s : RunState) (e : Event) (n : Nat) (h : ErrChInv n s) :
    ErrChInv (n + (if sendsError e then 1 else 0)) (step s e) := by
  have hlog : ∀ line, ErrChInv n (logf s line) := fun _ => h
  cases e with
  | offerMessage d =>
    have := (markMessage_errCh "offer" d s).1
    simpa [ErrChInv, step, sendsError, this] using h
  | answerMessage d =>
    have := (markMessage_errCh "answer" d s).1
    simpa [ErrChInv, step, sendsError, this] using h
  | offerICEState st =>
    by_cases hst : st = .Failed ∨ st = .Disconnected
    · simp only [sendsError, step, hst, decide_True, if_true]
      exact sendErr_inv _ _ _ (hlog _)
    · simp only [sendsError, step, hst, decide_False, if_false]
      exact hlog _
  | answerICEState st =>
    by_cases hst : st = .Failed ∨ st = .Disconnected
    · simp only [sendsError, step, hst, decide_True, if_true]
      exact sendErr_inv _ _ _ (hlog _)
    · simp only [sendsError, step, hst, decide_False, if_false]
      exact hlog _
  | offerCandidate c err =>
    cases c with
    | none => exact h
    | some c =>
      cases err with
      | none => exact hlog _
      | some err => exact sendErr_inv _ _ _ (hlog _)
  | answerCandidate c err =>
    cases c with
    | none => exact h
    | some c =>
      cases err with
      | none => exact hlog _
      | some err => exact sendErr_inv _ _ _ (hlog _)
  | offerOpen err =>
    cases err with
    | none => exact hlog _
    | some err => exact sendErr_inv _ _ _ (hlog _)
  | answerOpen err =>
    cases err with
    | none => exact hlog _
    | some err => exact sendErr_inv _ _ _ (hlog _)
  | answerDataChannel n => exact hlog _
  | deadline => exact h

theorem runEvents_tracker (evs : List Event) :
    TrackerInv (msgCount evs) (runEvents evs) := by
  induction evs using List.reverseRecOn with
  | nil => exact ⟨rfl, rfl, rfl⟩
  | append_singleton es e ih =>
    rw [runEvents_snoc]
    have h := step_tracker _ e _ ih
    have hc : msgCount (es ++ [e]) = msgCount es + (if isMessage e then 1 else 0) := by
      simp [msgCount, List.countP_append, List.countP_cons]
    rw [hc]
    exact h

theorem runEvents_errCh (evs : List Event) :
    ErrChInv (errorCount evs) (runEvents evs) := by
  induction evs using List.reverseRecOn with
  | nil => exact ⟨rfl, rfl, rfl⟩
  | append_singleton es e ih =>
    rw [runEvents_snoc]
    have h := step_errCh _ e _ ih
    have hc : errorCount (es ++ [e]) = errorCount es + (if sendsError e then 1 else 0) := by
      simp [errorCount, List.countP_append, List.countP_cons]
    rw [hc]
    exact h


/-! ## The completion tracker -/

/-- C1 (completion one-shot): after any sequence of `markMessage` calls on the
fresh tracker the counter is 2 minus the number of calls, `doneCh` holds the
completion signal exactly once if there were at least two calls and nothing
otherwise, no send on `doneCh` is left parked, and a further call changes
`doneCh` exactly when it takes the counter to 0. -/
theorem completion_one_shot (calls : List (String × String)) :
    (markAll calls).messagesNeeded = 2 - (calls.length : Int) ∧
    (markAll calls).doneCh.buf = (if 2 ≤ calls.length then [()] else []) ∧
    (markAll calls).doneCh.waiting = [] ∧
    ∀ c : String × String,
      ((markAll (calls ++ [c])).doneCh ≠ (markAll calls).doneCh ↔
        (markAll (calls ++ [c])).messagesNeeded = 0) := by
  obtain ⟨hn, _, hd⟩ := markAll_inv calls
  refine ⟨hn, by rw [hd], by rw [hd], ?_⟩
  intro c
  obtain ⟨hn2, _, hd2⟩ := markAll_inv (calls ++ [c])
  rw [hn2, hd2, hd]
  simp only [List.length_append, List.length_singleton]
  by_cases h1 : calls.length = 1
  · simp [h1]
  · have hiff : (2 ≤ calls.length + 1) ↔ (2 ≤ calls.length) := by omega
    have hne : ¬ ((2 : Int) - ((calls.length + 1 : Nat) : Int) = 0) := by omega
    simp only [hiff, ne_eq, not_true_eq_false, false_iff]
    exact hne

/-- C2, as stated, fails: two confirmations that both carry the source
`offer` complete the tracker although no confirmation has the source
`answer`. -/
theorem each_direction_counterexample :
    (markAll [("offer", "hello-from-answer"), ("offer", "hello-from-answer")]).doneCh.buf
      = [()] ∧
    (runEvents [.offerMessage "hello-from-answer", .offerMessage "hello-from-answer"]).doneCh.buf
      = [()] ∧
    "answer" ∉ [("offer", "hello-from-answer"), ("offer", "hello-from-answer")].map Prod.fst := by
  decide

/-- C2 (success and directions), amended: the completion signal has been
emitted exactly when at least two confirmations were fed to `markMessage`,
whatever their sources; it implies a confirmation from `offer` and one from
`answer` when every source is one of the two and no source confirms twice. -/
theorem completion_counts_confirmations (calls : List (String × String)) :
    ((markAll calls).doneCh.buf ≠ [] ↔ 2 ≤ calls.length) ∧
    ((markAll calls).doneCh.buf ≠ [] →
      (∀ c ∈ calls, c.1 = "offer" ∨ c.1 = "answer") →
      (calls.map Prod.fst).Nodup →
      "offer" ∈ calls.map Prod.fst ∧ "answer" ∈ calls.map Prod.fst) := by
  obtain ⟨_, _, hd⟩ := markAll_inv calls
  have hiff : (markAll calls).doneCh.buf ≠ [] ↔ 2 ≤ calls.length := by
    rw [hd]
    by_cases h2 : 2 ≤ calls.length <;> simp [h2]
  refine ⟨hiff, ?_⟩
  intro hsig hsrc hnd
  have hlen := hiff.mp hsig
  match calls, hsrc, hnd, hlen with
  | a :: b :: rest, hsrc, hnd, _ =>
    have ha := hsrc a (by simp)
    have hb := hsrc b (by simp)
    have hab : a.1 ≠ b.1 := by
      intro h
      simp [h] at hnd
    simp only [List.map_cons, List.mem_cons]
    rcases ha with ha | ha <;> rcases hb with hb | hb
    · exact absurd (ha.trans hb.symm) hab
    · exact ⟨Or.inl ha.symm, Or.inr (Or.inl hb.symm)⟩
    · exact ⟨Or.inr (Or.inl hb.symm), Or.inl ha.symm⟩
    · exact absurd (ha.trans hb.symm) hab

theorem completion_counts_confirmations_witness :
    "offer" ∈ [("offer", "hello-from-answer"), ("answer", "hello-from-offer")].map Prod.fst ∧
    "answer" ∈ [("offer", "hello-from-answer"), ("answer", "hello-from-offer")].map Prod.fst :=
  (completion_counts_confirmations
    [("offer", "hello-from-answer"), ("answer", "hello-from-offer")]).2
    (by decide) (by decide) (by decide)

/-! ## The error channel -/

/-- C10, as stated, fails: after four error sends nobody has read, the fifth
callback parks on its send to `errCh`. -/
theorem error_producers_never_block_counterexample :
    errorCount fiveErrors = 5 ∧
    (runEvents fiveErrors).errCh.buf.length = 4 ∧
    (runEvents fiveErrors).errCh.waiting =
      ["answer peer add candidate: remote description is not set"] := by
  decide

/-- C10 (error producers), amended: with no receive yet, `errCh` queues the
first four error sends and every later send parks; so no callback is blocked
exactly when at most four error sends have been made before the coordinator
reads, and the coordinator's single receive lets one parked sender in. -/
theorem error_send_parks_when_full (evs : List Event) :
    (runEvents evs).errCh.buf.length = min (errorCount evs) 4 ∧
    (runEvents evs).errCh.waiting.length = errorCount evs - 4 ∧
    ((runEvents evs).errCh.waiting = [] ↔ errorCount evs ≤ 4) ∧
    (∀ err ch, (runEvents evs).errCh.recv = some (err, ch) →
      ch.waiting.length = errorCount evs - 5) := by
  obtain ⟨_, hb, hw⟩ := runEvents_errCh evs
  refine ⟨hb, hw, ?_, ?_⟩
  · rw [← List.length_eq_zero, hw]
    omega
  · intro err ch hrecv
    unfold Chan.recv at hrecv
    cases hbuf : (runEvents evs).errCh.buf with
    | nil => simp [hbuf] at hrecv
    | cons v rest =>
      cases hwait : (runEvents evs).errCh.waiting with
      | nil =>
        rw [hwait] at hw
        simp only [hbuf, hwait, Option.some.injEq, Prod.mk.injEq] at hrecv
        rw [← hrecv.2]
        simp only [List.length_nil] at hw ⊢
        omega
      | cons w ws =>
        rw [hwait] at hw
        simp only [hbuf, hwait, Option.some.injEq, Prod.mk.injEq] at hrecv
        rw [← hrecv.2]
        simp only [List.length_cons] at hw ⊢
        omega


theorem error_send_parks_when_full_witness :
    ∃ err ch, (runEvents fiveErrors).errCh.recv = some (err, ch) ∧
      ch.waiting.length = errorCount fiveErrors - 5 :=
  ⟨"offer peer ICE state: disconnected", _, rfl,
    (error_send_parks_when_full fiveErrors).2.2.2 _ _ rfl⟩

/-! ## The final select -/

theorem mem_ready (s : RunState) (o : Outcome) :
    o ∈ ready s ↔
      (o = Outcome.Success ∧ s.doneCh.buf ≠ []) ∨
      (∃ err, o = Outcome.Failure err ∧ s.errCh.buf.head? = some err) ∨
      (o = Outcome.Timeout ∧ s.ctxDone = true) := by
  unfold ready
  cases hb : s.errCh.buf with
  | nil =>
    by_cases hd : s.doneCh.buf = [] <;> by_cases hc : s.ctxDone = true <;>
      simp [hd, hc]
  | cons e es =>
    by_cases hd : s.doneCh.buf = [] <;> by_cases hc : s.ctxDone = true <;>
      simp [hd, hc, eq_comm]

theorem ready_eq_nil (s : RunState) :
    ready s = [] ↔ s.doneCh.buf = [] ∧ s.errCh.buf = [] ∧ s.ctxDone = false := by
  unfold ready
  cases hb : s.errCh.buf with
  | nil =>
    by_cases hd : s.doneCh.buf = [] <;> by_cases hc : s.ctxDone = true <;>
      simp [hd, hc]
  | cons e es =>
    by_cases hd : s.doneCh.buf = [] <;> by_cases hc : s.ctxDone = true <;>
      simp [hd, hc]

theorem ready_length (s : RunState) :
    (ready s).length =
      (if s.doneCh.buf = [] then 0 else 1) + (if s.errCh.buf = [] then 0 else 1) +
      (if s.ctxDone = true then 1 else 0) := by
  unfold ready
  cases hb : s.errCh.buf with
  | nil =>
    by_cases hd : s.doneCh.buf = [] <;> by_cases hc : s.ctxDone = true <;>
      simp [hd, hc]
  | cons e es =>
    by_cases hd : s.doneCh.buf = [] <;> by_cases hc : s.ctxDone = true <;>
      simp [hd, hc]

theorem send_buf_ne_nil {α : Type} (ch : Chan α) (v : α) (h : ch.buf ≠ []) :
    (ch.send v).buf ≠ [] := by
  unfold Chan.send
  split
  · simp
  · exact h

theorem markMessage_doneCh (a b : String) (s : RunState) :
    (markMessage a b s).doneCh = s.doneCh ∨
    (markMessage a b s).doneCh = s.doneCh.send () := by
  unfold markMessage
  dsimp only
  split
  · split
    · exact Or.inl rfl
    · exact Or.inr rfl
  · exact Or.inl rfl

/-- What one event can change: a message event touches only the tracker, a
callback that sends an error only `errCh`, the deadline only the context. -/
theorem step_fields (s : RunState) (e : Event) :
    ((step s e).doneCh = s.doneCh ∨
      (isMessage e = true ∧ (step s e).doneCh = s.doneCh.send ())) ∧
    ((step s e).errCh = s.errCh ∨
      (isMessage e = false ∧ e ≠ Event.deadline ∧ ∃ msg, (step s e).errCh = s.errCh.send msg)) ∧
    ((step s e).ctxDone = s.ctxDone ∨
      (isMessage e = false ∧ (step s e).errCh = s.errCh ∧ (step s e).ctxDone = true)) ∧
    (isMessage e = true → (step s e).errCh = s.errCh) := by
  cases e with
  | offerMessage d =>
    have h1 := markMessage_doneCh "offer" d s
    have h2 := markMessage_errCh "offer" d s
    refine ⟨?_, Or.inl h2.1, Or.inl h2.2, fun _ => h2.1⟩
    rcases h1 with h1 | h1
    · exact Or.inl h1
    · exact Or.inr ⟨rfl, h1⟩
  | answerMessage d =>
    have h1 := markMessage_doneCh "answer" d s
    have h2 := markMessage_errCh "answer" d s
    refine ⟨?_, Or.inl h2.1, Or.inl h2.2, fun _ => h2.1⟩
    rcases h1 with h1 | h1
    · exact Or.inl h1
    · exact Or.inr ⟨rfl, h1⟩
  | offerICEState st =>
    unfold step
    dsimp only
    split
    · exact ⟨Or.inl rfl, Or.inr ⟨rfl, by simp, _, rfl⟩, Or.inl rfl, by simp [isMessage]⟩
    · exact ⟨Or.inl rfl, Or.inl rfl, Or.inl rfl, fun _ => rfl⟩
  | answerICEState st =>
    unfold step
    dsimp only
    split
    · exact ⟨Or.inl rfl, Or.inr ⟨rfl, by simp, _, rfl⟩, Or.inl rfl, by simp [isMessage]⟩
    · exact ⟨Or.inl rfl, Or.inl rfl, Or.inl rfl, fun _ => rfl⟩
  | offerCandidate c err =>
    cases c with
    | none => exact ⟨Or.inl rfl, Or.inl rfl, Or.inl rfl, fun _ => rfl⟩
    | some c =>
      cases err with
      | none => exact ⟨Or.inl rfl, Or.inl rfl, Or.inl rfl, fun _ => rfl⟩
      | some err =>
        exact ⟨Or.inl rfl, Or.inr ⟨rfl, by simp, _, rfl⟩, Or.inl rfl, by simp [isMessage]⟩
  | answerCandidate c err =>
    cases c with
    | none => exact ⟨Or.inl rfl, Or.inl rfl, Or.inl rfl, fun _ => rfl⟩
    | some c =>
      cases err with
      | none => exact ⟨Or.inl rfl, Or.inl rfl, Or.inl rfl, fun _ => rfl⟩
      | some err =>
        exact ⟨Or.inl rfl, Or.inr ⟨rfl, by simp, _, rfl⟩, Or.inl rfl, by simp [isMessage]⟩
  | offerOpen err =>
    cases err with
    | none => exact ⟨Or.inl rfl, Or.inl rfl, Or.inl rfl, fun _ => rfl⟩
    | some err =>
      exact ⟨Or.inl rfl, Or.inr ⟨rfl, by simp, _, rfl⟩, Or.inl rfl, by simp [isMessage]⟩
  | answerOpen err =>
    cases err with
    | none => exact ⟨Or.inl rfl, Or.inl rfl, Or.inl rfl, fun _ => rfl⟩
    | some err =>
      exact ⟨Or.inl rfl, Or.inr ⟨rfl, by simp, _, rfl⟩, Or.inl rfl, by simp [isMessage]⟩
  | answerDataChannel n => exact ⟨Or.inl rfl, Or.inl rfl, Or.inl rfl, fun _ => rfl⟩
  | deadline => exact ⟨Or.inl rfl, Or.inl rfl, Or.inr ⟨rfl, rfl, rfl⟩, fun _ => rfl⟩

theorem ready_step_ne_nil (s : RunState) (e : Event) (h : ready s ≠ []) :
    ready (step s e) ≠ [] := by
  intro hn
  rw [ready_eq_nil] at hn
  apply h
  rw [ready_eq_nil]
  obtain ⟨hd, he, hc⟩ := step_fields s e
  refine ⟨?_, ?_, ?_⟩
  · by_contra hne
    rcases hd with hd | ⟨_, hd⟩
    · exact hne (hd ▸ hn.1)
    · exact send_buf_ne_nil _ () hne (hd ▸ hn.1)
  · by_contra hne
    rcases he with he | ⟨_, _, msg, he⟩
    · exact hne (he ▸ hn.2.1)
    · exact send_buf_ne_nil _ msg hne (he ▸ hn.2.1)
  · rcases hc.1 with hc | ⟨_, _, hc⟩
    · rw [← hc]; exact hn.2.2
    · rw [hc] at hn; exact absurd hn.2.2 (by simp)

theorem ready_foldl_ne_nil (es : List Event) (s : RunState) (h : ready s ≠ []) :
    ready (es.foldl step s) ≠ [] := by
  induction es generalizing s with
  | nil => exact h
  | cons e es ih => exact ih _ (ready_step_ne_nil s e h)

theorem ready_step_length (s : RunState) (e : Event) (h : ready s = []) :
    (ready (step s e)).length ≤ 1 := by
  rw [ready_eq_nil] at h
  obtain ⟨h1, h2, h3⟩ := h
  obtain ⟨hd, he, hc, hm⟩ := step_fields s e
  rw [ready_length]
  rcases hd with hd | ⟨hmsg, _⟩
  · rw [hd, if_pos h1]
    rcases he with he | ⟨_, hdl, _⟩
    · rw [he, if_pos h2]
      split <;> omega
    · rcases hc with hc | ⟨_, herr, _⟩
      · rw [hc, h3]
        split <;> simp
      · rw [herr, if_pos h2]
        split <;> omega
  · rw [hm hmsg, if_pos h2]
    rcases hc with hc | ⟨hmf, _, _⟩
    · rw [hc, h3]
      split <;> simp
    · rw [hmsg] at hmf
      exact absurd hmf (by simp)

theorem awaitSelect_ready (s : RunState) (es : List Event) (h : ready s ≠ []) :
    awaitSelect s es = ready s := by
  cases es with
  | nil => rfl
  | cons e es => simp [awaitSelect, h]

theorem awaitSelect_skip (pre rest : List Event) (s : RunState)
    (h : ready (pre.foldl step s) = []) :
    awaitSelect s (pre ++ rest) = awaitSelect (pre.foldl step s) rest := by
  induction pre generalizing s with
  | nil => rfl
  | cons p ps ih =>
    have hs : ready s = [] := by
      by_contra hne
      exact ready_foldl_ne_nil (p :: ps) s hne h
    simp only [List.cons_append, awaitSelect, hs, ne_eq, not_true_eq_false, if_false]
    exact ih (step s p) h


theorem awaitSelect_mem (es : List Event) (s : RunState) (o : Outcome)
    (h : o ∈ awaitSelect s es) :
    ∃ pre post, es = pre ++ post ∧ o ∈ ready (pre.foldl step s) := by
  induction es generalizing s with
  | nil => exact ⟨[], [], rfl, h⟩
  | cons e es ih =>
    by_cases hr : ready s = []
    · have h2 : o ∈ awaitSelect (step s e) es := by
        simpa [awaitSelect, hr] using h
      obtain ⟨pre, post, hsplit, hmem⟩ := ih (step s e) h2
      exact ⟨e :: pre, post, by rw [hsplit]; rfl, hmem⟩
    · have h2 : o ∈ ready s := by
        simpa [awaitSelect, hr] using h
      exact ⟨[], e :: es, rfl, h2⟩

theorem doneCh_signal_count (evs : List Event) (h : (runEvents evs).doneCh.buf ≠ []) :
    2 ≤ msgCount evs := by
  obtain ⟨_, _, hd⟩ := runEvents_tracker evs
  rw [hd] at h
  by_contra hlt
  simp [hlt] at h

theorem errCh_head_count (evs : List Event) (err : String)
    (h : (runEvents evs).errCh.buf.head? = some err) : 1 ≤ errorCount evs := by
  obtain ⟨_, hb, _⟩ := runEvents_errCh evs
  cases hbuf : (runEvents evs).errCh.buf with
  | nil => simp [hbuf] at h
  | cons v rest =>
    rw [hbuf] at hb
    simp only [List.length_cons] at hb
    omega

/-- C9, as stated, fails: with the completion signal already on `doneCh`
before the error is queued, a select evaluated afterwards can still take the
error case; and with the error queued before the second confirmation it can
still take the completion case.  Both sequences follow the order of a real
run: the offer channel opens, the answer peer is told of the channel and
opens it, and each side receives the greeting of the other. -/
theorem race_first_observed_counterexample :
    ready (runEvents [.offerOpen none, .answerDataChannel "demo", .answerOpen none,
        .answerMessage "hello-from-offer", .offerMessage "hello-from-answer"])
      = [Outcome.Success] ∧
    Outcome.Failure "offer peer ICE state: disconnected" ∈
      runSelect [.offerOpen none, .answerDataChannel "demo", .answerOpen none,
        .answerMessage "hello-from-offer", .offerMessage "hello-from-answer",
        .offerICEState .Disconnected] [] ∧
    ready (runEvents [.offerOpen none, .answerDataChannel "demo", .answerOpen none,
        .answerMessage "hello-from-offer", .offerICEState .Disconnected])
      = [Outcome.Failure "offer peer ICE state: disconnected"] ∧
    Outcome.Success ∈
      runSelect [.offerOpen none, .answerDataChannel "demo", .answerOpen none,
        .answerMessage "hello-from-offer", .offerICEState .Disconnected,
        .offerMessage "hello-from-answer"] [] := by
  decide

/-- C9 (race resolution), amended: whatever the select resolves to was ready
after some initial part of the events: the completion case only with the
signal on `doneCh` (two confirmations made), the error case only with that
error at the head of `errCh`, the timeout case only after the deadline; and
it resolves to nothing while no case is ever ready.  When some case can
proceed as the select is reached it takes any of them, so with two or more
confirmations and an error already made both Success and Failure are
possible, whichever came first.  When no case can proceed it takes the one
case that the first enabling event makes ready. -/
theorem select_resolution (before after : List Event) :
    (∀ o, o ∈ runSelect before after →
      ∃ pre post, after = pre ++ post ∧ o ∈ ready (runEvents (before ++ pre)) ∧
        (o = Outcome.Success →
          (runEvents (before ++ pre)).doneCh.buf ≠ [] ∧ 2 ≤ msgCount (before ++ pre)) ∧
        (∀ err, o = Outcome.Failure err →
          (runEvents (before ++ pre)).errCh.buf.head? = some err ∧
          1 ≤ errorCount (before ++ pre)) ∧
        (o = Outcome.Timeout → (runEvents (before ++ pre)).ctxDone = true)) ∧
    ((∀ pre post, after = pre ++ post → ready (runEvents (before ++ pre)) = []) →
      runSelect before after = []) ∧
    (∀ o, o ∈ ready (runEvents before) ↔
      (o = Outcome.Success ∧ (runEvents before).doneCh.buf ≠ []) ∨
      (∃ err, o = Outcome.Failure err ∧ (runEvents before).errCh.buf.head? = some err) ∨
      (o = Outcome.Timeout ∧ (runEvents before).ctxDone = true)) ∧
    (ready (runEvents before) ≠ [] → runSelect before after = ready (runEvents before)) ∧
    (2 ≤ msgCount before → 1 ≤ errorCount before →
      Outcome.Success ∈ runSelect before after ∧
      ∃ err, Outcome.Failure err ∈ runSelect before after) ∧
    (∀ pre e post, after = pre ++ e :: post →
      ready (runEvents (before ++ pre)) = [] →
      ready (runEvents (before ++ pre ++ [e])) ≠ [] →
      ∃ o, runSelect before after = [o] ∧
        ready (runEvents (before ++ pre ++ [e])) = [o]) := by
  have hsound : ∀ o, o ∈ runSelect before after →
      ∃ pre post, after = pre ++ post ∧ o ∈ ready (runEvents (before ++ pre)) := by
    intro o ho
    obtain ⟨pre, post, hsplit, hmem⟩ := awaitSelect_mem after (runEvents before) o ho
    exact ⟨pre, post, hsplit, by rw [runEvents_append]; exact hmem⟩
  refine ⟨?_, ?_, mem_ready _, fun h => awaitSelect_ready _ _ h, ?_, ?_⟩
  · intro o ho
    obtain ⟨pre, post, hsplit, hmem⟩ := hsound o ho
    have hchar := (mem_ready _ o).mp hmem
    refine ⟨pre, post, hsplit, hmem, ?_, ?_, ?_⟩
    · intro hs
      subst hs
      rcases hchar with ⟨_, hd⟩ | ⟨err, he, _⟩ | ⟨he, _⟩
      · exact ⟨hd, doneCh_signal_count _ hd⟩
      · exact Outcome.noConfusion he
      · exact Outcome.noConfusion he
    · intro err hf
      subst hf
      rcases hchar with ⟨he, _⟩ | ⟨err2, he, hh⟩ | ⟨he, _⟩
      · exact Outcome.noConfusion he
      · injection he with he
        subst he
        exact ⟨hh, errCh_head_count _ _ hh⟩
      · exact Outcome.noConfusion he
    · intro ht
      subst ht
      rcases hchar with ⟨he, _⟩ | ⟨err, he, _⟩ | ⟨_, hc⟩
      · exact Outcome.noConfusion he
      · exact Outcome.noConfusion he
      · exact hc
  · intro hnever
    apply List.eq_nil_iff_forall_not_mem.mpr
    intro o ho
    obtain ⟨pre, post, hsplit, hmem⟩ := hsound o ho
    rw [hnever pre post hsplit] at hmem
    exact absurd hmem (List.not_mem_nil o)
  · intro hm he
    obtain ⟨_, _, hd⟩ := runEvents_tracker before
    obtain ⟨_, hb, _⟩ := runEvents_errCh before
    have hdone : (runEvents before).doneCh.buf ≠ [] := by
      rw [hd]
      simp [hm]
    have herr : (runEvents before).errCh.buf ≠ [] := by
      intro hnil
      rw [hnil] at hb
      simp only [List.length_nil] at hb
      omega
    have hready : ready (runEvents before) ≠ [] := by
      intro hnil
      exact hdone ((ready_eq_nil _).mp hnil).1
    unfold runSelect
    rw [awaitSelect_ready _ _ hready]
    constructor
    · exact (mem_ready _ _).mpr (Or.inl ⟨rfl, hdone⟩)
    · cases hbuf : (runEvents before).errCh.buf with
      | nil => exact absurd hbuf herr
      | cons v rest =>
        exact ⟨v, (mem_ready _ _).mpr (Or.inr (Or.inl ⟨v, rfl, by rw [hbuf]; rfl⟩))⟩
  · intro pre e post hafter hwait hwake
    subst hafter
    rw [runEvents_append] at hwait
    rw [runEvents_snoc, runEvents_append] at hwake
    have hlen := ready_step_length _ e hwait
    have hrun : runSelect before (pre ++ e :: post) =
        ready (step (pre.foldl step (runEvents before)) e) := by
      unfold runSelect
      rw [awaitSelect_skip pre (e :: post) _ hwait]
      cases post with
      | nil => simp [awaitSelect, hwait]
      | cons p ps => simp [awaitSelect, hwait, hwake]
    rw [hrun, runEvents_snoc, runEvents_append]
    cases hr : ready (step (pre.foldl step (runEvents before)) e) with
    | nil => exact absurd hr hwake
    | cons o os =>
      rw [hr] at hlen
      cases os with
      | nil => exact ⟨o, rfl, rfl⟩
      | cons o2 os => simp at hlen

theorem select_resolution_witness :
    (∃ o, runSelect
        [.offerOpen none, .answerDataChannel "demo", .answerOpen none,
          .answerMessage "hello-from-offer"]
        [.offerICEState .Connected, .offerICEState .Failed,
          .offerMessage "hello-from-answer"] = [o] ∧
      ready (runEvents ([.offerOpen none, .answerDataChannel "demo", .answerOpen none,
          .answerMessage "hello-from-offer"] ++ [.offerICEState .Connected] ++
        [.offerICEState .Failed])) = [o]) ∧
    (∃ pre post,
      [Event.offerICEState .Connected, .offerICEState .Failed,
          .offerMessage "hello-from-answer"] = pre ++ post ∧
      Outcome.Failure "offer peer ICE state: failed" ∈
        ready (runEvents ([.offerOpen none, .answerDataChannel "demo", .answerOpen none,
          .answerMessage "hello-from-offer"] ++ pre))) ∧
    runSelect
        [.offerOpen none, .answerDataChannel "demo", .answerOpen none,
          .answerMessage "hello-from-offer"]
        [.offerICEState .Connected, .offerICEState .Failed,
          .offerMessage "hello-from-answer"]
      = [Outcome.Failure "offer peer ICE state: failed"] :=
  ⟨(select_resolution
      [.offerOpen none, .answerDataChannel "demo", .answerOpen none,
        .answerMessage "hello-from-offer"]
      [.offerICEState .Connected, .offerICEState .Failed,
        .offerMessage "hello-from-answer"]).2.2.2.2.2
      [.offerICEState .Connected] (.offerICEState .Failed)
      [.offerMessage "hello-from-answer"] rfl (by decide) (by decide),
    (fun ⟨pre, post, h1, h2, _⟩ => ⟨pre, post, h1, h2⟩)
      ((select_resolution
        [.offerOpen none, .answerDataChannel "demo", .answerOpen none,
          .answerMessage "hello-from-offer"]
        [.offerICEState .Connected, .offerICEState .Failed,
          .offerMessage "hello-from-answer"]).1
        (Outcome.Failure "offer peer ICE state: failed") (by decide)),
    by decide⟩

end WebrtcTest
